import Mathlib

/-!
Verification development for the Inventor BOM manager
(managerbom.py, inventorapi.py, bom.py).

The Python sources are shallowly embedded: Python dictionaries become
insertion-ordered association lists over a value type PyVal, Python floats
are idealised as exact rationals (all concrete values used below are exactly
representable, so no binary-rounding discrepancy is exercised), machine
exceptions (KeyError, TypeError, AttributeError, ValueError escaping a
handler) become the error case of an Except String computation, and the
interactive axis prompt of the profile-material summariser becomes an
explicit resolver callback whose result is restricted to the three axes the
retry loop of the source accepts.
-/

/-- A Python runtime value as it occurs in the BOM pipeline: strings,
integers, floats (idealised as rationals) and None. -/
inductive PyVal where
  | vStr (s : String)
  | vInt (n : ℤ)
  | vFloat (q : ℚ)
  | vNone
deriving DecidableEq, Repr

open PyVal

/-- Python truthiness for the values above (empty string, zero and None are
falsy). -/
def pyTruthy : PyVal → Bool
  | vStr s => !(s == "")
  | vInt n => !(n == 0)
  | vFloat q => !(q == 0)
  | vNone => false

/-- Python equality (==) on the values above; mixed int/float compare by
numeric value, None is only equal to None, any other cross-type comparison
is unequal. -/
def pyEq : PyVal → PyVal → Bool
  | vStr a, vStr b => a == b
  | vInt a, vInt b => a == b
  | vFloat a, vFloat b => a == b
  | vInt a, vFloat b => ((a : ℚ) == b)
  | vFloat a, vInt b => (a == (b : ℚ))
  | vNone, vNone => true
  | _, _ => false

/-- Numeric view of a value, when it is a number. -/
def pyToRat : PyVal → Option ℚ
  | vInt n => some (n : ℚ)
  | vFloat q => some q
  | _ => none

/-- Python addition on the values we use: int+int stays int, any int/float
mix becomes float, string+string concatenates, everything else raises
TypeError. -/
def pyAdd : PyVal → PyVal → Except String PyVal
  | vInt a, vInt b => .ok (vInt (a + b))
  | vInt a, vFloat b => .ok (vFloat ((a : ℚ) + b))
  | vFloat a, vInt b => .ok (vFloat (a + (b : ℚ)))
  | vFloat a, vFloat b => .ok (vFloat (a + b))
  | vStr a, vStr b => .ok (vStr (a ++ b))
  | _, _ => .error "TypeError: unsupported operand types for +"

/-- Python multiplication on numbers: int*int stays int, any float makes a
float; other operands raise TypeError. -/
def pyMul : PyVal → PyVal → Except String PyVal
  | vInt a, vInt b => .ok (vInt (a * b))
  | vInt a, vFloat b => .ok (vFloat ((a : ℚ) * b))
  | vFloat a, vInt b => .ok (vFloat (a * (b : ℚ)))
  | vFloat a, vFloat b => .ok (vFloat (a * b))
  | _, _ => .error "TypeError: unsupported operand types for *"

/-- Python true division by a value: always yields a float on numbers,
raises TypeError otherwise. -/
def pyDiv : PyVal → PyVal → Except String PyVal
  | a, b =>
    match pyToRat a, pyToRat b with
    | some x, some y => .ok (vFloat (x / y))
    | _, _ => .error "TypeError: unsupported operand types for /"

/-- Python strict comparison (<) on the values we use: numbers compare by
value, strings lexicographically; any other pair raises TypeError. -/
def pyLt : PyVal → PyVal → Except String Bool
  | vStr a, vStr b => .ok (decide (a < b))
  | a, b =>
    match pyToRat a, pyToRat b with
    | some x, some y => .ok (decide (x < y))
    | _, _ => .error "TypeError: values are not orderable"

/-- Python max over a nonempty list, scanning left to right and replacing
the current maximum when a later element is strictly greater (so ties keep
the earlier element); empty input raises ValueError. -/
def pyMaxList : List PyVal → Except String PyVal
  | [] => .error "ValueError: max of empty sequence"
  | x :: xs => xs.foldlM (fun cur v => do if (← pyLt cur v) then pure v else pure cur) x

/-- Python min over a nonempty list, scanning left to right and replacing
the current minimum when a later element is strictly smaller. -/
def pyMinList : List PyVal → Except String PyVal
  | [] => .error "ValueError: min of empty sequence"
  | x :: xs => xs.foldlM (fun cur v => do if (← pyLt v cur) then pure v else pure cur) x

/-- Python str.startswith lifted to values, computed on the character
sequences: raises AttributeError when the receiver is not a string (as
attribute lookup of startswith would). -/
def pyStartsWith : PyVal → String → Except String Bool
  | vStr s, p => .ok (p.data.isPrefixOf s.data)
  | _, _ => .error "AttributeError: object has no attribute startswith"

/-- A Python dict with string keys in insertion order, as used for the BOM
records. -/
abbrev Dict := List (String × PyVal)

/-- Dict lookup (d[k] successful case): first pair with the given key. -/
def dictGet : Dict → String → Option PyVal
  | [], _ => none
  | (k2, v) :: t, k => if k2 == k then some v else dictGet t k

/-- Dict item assignment d[k] = v: replaces the value in place when the key
exists (keeping its position), appends otherwise — Python insertion-order
semantics. -/
def dictSet : Dict → String → PyVal → Dict
  | [], k, v => [(k, v)]
  | (k2, v2) :: t, k, v => if k2 == k then (k2, v) :: t else (k2, v2) :: dictSet t k v

/-- Dict.update with a list of key/value pairs, applied left to right. -/
def dictUpdate (d : Dict) (us : List (String × PyVal)) : Dict :=
  us.foldl (fun acc p => dictSet acc p.1 p.2) d

/-- Dict lookup raising KeyError when the key is absent. -/
def dictGetE (d : Dict) (k : String) : Except String PyVal :=
  match dictGet d k with
  | some v => .ok v
  | none => .error ("KeyError: " ++ k)

/-- Characters stripped by str.rstrip(" м"): any mix of trailing spaces and
Cyrillic м characters. -/
def rstripSpaceM (s : String) : String :=
  String.mk ((s.data.reverse.dropWhile (fun c => c == ' ' || c == 'м')).reverse)

/-- ASCII whitespace accepted around a Python float literal. -/
def isPySpace (c : Char) : Bool :=
  c == ' ' || c == '\t' || c == '\n' || c == '\r' || c == '\x0b' || c == '\x0c'

/-- Digits of a numeral read as a natural number. -/
def digitsToNat (l : List Char) : ℕ :=
  l.foldl (fun a c => a * 10 + (c.toNat - 48)) 0

/-- The builtin float(s) conversion, modelled on finite decimal literals:
optional surrounding ASCII whitespace, optional sign, digits with an
optional fractional part (at least one digit overall) and an optional
decimal exponent. The special spellings inf/nan and digit-group
underscores are out of scope of this model; none of the unit-quantity
strings of the pipeline uses them. The exact rational value is kept in
place of the nearest binary double. -/
def pyFloatParse (s : String) : Option ℚ :=
  let cs := ((s.data.dropWhile isPySpace).reverse.dropWhile isPySpace).reverse
  let sgn : ℚ := match cs with
    | c :: _ => if c == '-' then -1 else 1
    | [] => 1
  let cs := match cs with
    | c :: t => if c == '-' || c == '+' then t else cs
    | [] => cs
  let ip := cs.takeWhile Char.isDigit
  let cs2 := cs.drop ip.length
  let fp := match cs2 with
    | c :: t => if c == '.' then t.takeWhile Char.isDigit else []
    | [] => []
  let cs3 := match cs2 with
    | c :: t => if c == '.' then t.drop fp.length else cs2
    | [] => cs2
  if ip.isEmpty && fp.isEmpty then none
  else
    let base : ℚ := (digitsToNat ip : ℚ) + (digitsToNat fp : ℚ) / ((10 : ℚ) ^ fp.length)
    match cs3 with
    | [] => some (sgn * base)
    | c :: t =>
      if c == 'e' || c == 'E' then
        let esgn : ℤ := match t with
          | c2 :: _ => if c2 == '-' then -1 else 1
          | [] => 1
        let t2 := match t with
          | c2 :: t2 => if c2 == '-' || c2 == '+' then t2 else t
          | [] => t
        let ed := t2.takeWhile Char.isDigit
        if ed.isEmpty || !(t2.drop ed.length).isEmpty then none
        else some (sgn * base * (10 : ℚ) ^ (esgn * (digitsToNat ed : ℤ)))
      else none

/-- The builtin round-to-integer with ties broken toward the even integer,
as Python round uses. -/
def roundHalfEven (q : ℚ) : ℤ :=
  let f : ℤ := q.num.fdiv (q.den : ℤ)
  let r : ℚ := q - (f : ℚ)
  if r < 1 / 2 then f
  else if 1 / 2 < r then f + 1
  else if f % 2 = 0 then f else f + 1

/-- Python round(x, 2) on our values: floats are rounded to two decimal
places (ties to even), ints pass through, anything else raises TypeError. -/
def pyRound2 : PyVal → Except String PyVal
  | vFloat q => .ok (vFloat ((roundHalfEven (q * 100) : ℚ) / 100))
  | vInt n => .ok (vInt n)
  | _ => .error "TypeError: type does not define rounding"

/-- Fixed two-decimal formatting, as the format specifier .2f produces
(rounding ties to even on the idealised rational value). -/
def formatF2 (q : ℚ) : String :=
  let n := roundHalfEven (q * 100)
  let sign := if n < 0 then "-" else ""
  let a := n.natAbs
  let frac := a % 100
  sign ++ toString (a / 100) ++ "." ++
    (if frac < 10 then "0" ++ toString frac else toString frac)

/-- Fallback rendering of a float whose denominator divides a power of ten:
the decimal expansion with a trailing fractional part of at least one digit,
matching str() on exactly representable values such as 500.0 or 0.5. -/
def decimalOfRat (q : ℚ) : String :=
  let sign := if q < 0 then "-" else ""
  let a := q.num.natAbs
  let d := q.den
  match (List.range 41).find? (fun k => 10 ^ k % d == 0) with
  | some k =>
    let scaled := a * (10 ^ k) / d
    let ip := scaled / 10 ^ k
    let fp := scaled % 10 ^ k
    let fpStr := toString fp
    let fpPadded := String.mk (List.replicate (k - fpStr.length) '0') ++ fpStr
    let fpTrimmed := String.mk ((fpPadded.data.reverse.dropWhile (· == '0')).reverse)
    sign ++ toString ip ++ "." ++ (if fpTrimmed == "" then "0" else fpTrimmed)
  | none => sign ++ toString a ++ "/" ++ toString d

/-- Python str() on our values; float rendering is exact for the
terminating decimals that arise in the pipeline. -/
def pyStr : PyVal → String
  | vStr s => s
  | vInt n => toString n
  | vFloat q => decimalOfRat q
  | vNone => "None"

/-! ## Document model (inventorapi.py) -/

/-- The property set titles Document.get_properties scans, in order
(Document._PROPERTY_SETS). -/
def propertySetTitles : List String :=
  ["Design Tracking Properties",
   "Inventor Summary Information",
   "Inventor Document Summary Information",
   "Inventor User Defined Properties"]

/-- Document subtype identifier of sheet metal parts
(Document._SUBTYPES key sheet metal). -/
def subTypeSheetMetal : String := "\x7b9C464203-9BAE-11D3-8BAD-0060B0CE6BB4\x7d"

/-- Document subtype identifier of assemblies. -/
def subTypeAssembly : String := "\x7bE60F81E1-49B3-11D0-93C3-7E0706000000\x7d"

/-- Document subtype identifier of generic modeling parts. -/
def subTypeModeling : String := "\x7b4D29B490-49B2-11D0-93C3-7E0706000000\x7d"

/-- Document subtype identifier of drawing layouts. -/
def subTypeDrawing : String := "\x7bBBF9FDF1-52DC-11D0-8C04-0800090BE8EC\x7d"

/-- The externally sourced state of one referenced Item document: its
unit-quantity string, its subtype identifier, its property-set contents (a
lookup that yields none when the COM property access raises) and its
bounding-box extremes per axis in centimetres (RangeBox MinPoint/MaxPoint,
indexed X, Y, Z). -/
structure ItemModel where
  unitQuantity : String
  subType : String
  propLookup : String → String → Option PyVal
  rbMin : Fin 3 → ℚ
  rbMax : Fin 3 → ℚ

/-- Document.is_modeling. -/
def ItemModel.isModeling (it : ItemModel) : Bool := it.subType == subTypeModeling

/-- Document.is_sheet_metal. -/
def ItemModel.isSheetMetal (it : ItemModel) : Bool := it.subType == subTypeSheetMetal

/-- Document.is_part: a modeling part or a sheet-metal part. -/
def ItemModel.isPart (it : ItemModel) : Bool := it.isModeling || it.isSheetMetal

/-- Document.get_properties with its stale carry: the local value is
initialised to None once, before the loop over requested property names, so
a name found in no property set receives the value fetched for the most
recent successful name instead of being reset. -/
def getPropsGo (lookup : String → String → Option PyVal) :
    PyVal → List String → List (String × PyVal)
  | _, [] => []
  | value, p :: ps =>
    let fetched := (propertySetTitles.map (fun t => lookup t p)).reduceOption.head?
    let value2 := fetched.getD value
    (p, value2) :: getPropsGo lookup value2 ps

/-- Document.get_properties: one entry per requested property name, in
request order. -/
def getProperties (lookup : String → String → Option PyVal)
    (props : List String) : List (String × PyVal) :=
  getPropsGo lookup vNone props

/-- Part.get_size: bounding-box extent per axis, converted from centimetres
to millimetres and rounded to an integer. -/
def getSize (it : ItemModel) : List (String × PyVal) :=
  [("Size X", vInt (roundHalfEven ((it.rbMax 0 - it.rbMin 0) * 10))),
   ("Size Y", vInt (roundHalfEven ((it.rbMax 1 - it.rbMin 1) * 10))),
   ("Size Z", vInt (roundHalfEven ((it.rbMax 2 - it.rbMin 2) * 10)))]

mutual

/-- One BOM row: its item quantity, its BOM structure name (the
_BOM_STRUCTURES image of the raw code, none for an unknown code), the
referenced item and its child rows. The row sequence is a dedicated
mutual inductive so that the tree walk below is structurally recursive
and evaluates inside the kernel. -/
inductive BRow where
  | mk (itemQuantity : ℤ) (bomStructure : Option String)
       (item : ItemModel) (childRows : BRows)

/-- An ordered sequence of BOM rows. -/
inductive BRows where
  | nil
  | cons (head : BRow) (tail : BRows)

end

/-- BOMRow.item_quantity. -/
def BRow.itemQuantity : BRow → ℤ
  | ⟨q, _, _, _⟩ => q

/-- BOMRow.bom_structure. -/
def BRow.bomStructure : BRow → Option String
  | ⟨_, b, _, _⟩ => b

/-- The referenced item of a row. -/
def BRow.item : BRow → ItemModel
  | ⟨_, _, it, _⟩ => it

/-- BOMRow.get_child_rows. -/
def BRow.childRows : BRow → BRows
  | ⟨_, _, _, cs⟩ => cs

/-- Positional access into a row sequence. -/
def BRows.nth : BRows → ℕ → Option BRow
  | .nil, _ => none
  | .cons r _, 0 => some r
  | .cons _ rs, n + 1 => rs.nth n

/-- Build a row sequence from a list. -/
def BRows.ofList : List BRow → BRows
  | [] => .nil
  | r :: rs => .cons r (BRows.ofList rs)

/-- BOMRow.is_purchased. -/
def BRow.isPurchased (r : BRow) : Bool := r.bomStructure == some "purchased"

/-- BOMRow.is_normal. -/
def BRow.isNormal (r : BRow) : Bool := r.bomStructure == some "normal"

/-! ## BOM tree walk (ManagerBOM._collect_data) -/

/-- ManagerBOM._ROW_PROPERTIES companions used per record. -/
def purchasedItemProperties : List String :=
  ["Part Number", "Description", "Project", "Vendor", "Stock Number"]

/-- ManagerBOM._MATERIAL_ITEM_PROPERTIES. -/
def materialItemProperties : List String :=
  ["Part Number", "Description", "Material", "Mass"]

/-- ManagerBOM._FLAT_MATERIAL_PROPERTIES. -/
def flatMaterialProperties : List String :=
  ["Flat Pattern Width", "Flat Pattern Length", "Flat Pattern Area"]

/-- The per-row record construction of ManagerBOM._collect_data (lines
55 to 107 without the recursive call): the common Unit Quantity and Item
Quantity fields, the branch on purchased versus normal part rows, the strip
heuristic on sheet-metal material names, and the final append-only-if-keys-
were-added test. Returns the record to append, none when the row adds no
category data, or the Python exception the branch raises. -/
def classifyRow (row : BRow) (itemQ : ℤ) : Except String (Option Dict) :=
  let base : Dict :=
    [("Unit Quantity", vStr row.item.unitQuantity), ("Item Quantity", vInt itemQ)]
  if row.isPurchased then
    let rd := dictUpdate base (getProperties row.item.propLookup purchasedItemProperties)
    let rd := dictSet rd "Type" (vStr "purchased")
    .ok (if rd.length > 2 then some rd else none)
  else if row.isNormal && row.item.isPart then
    let rd := dictUpdate base (getProperties row.item.propLookup materialItemProperties)
    if row.item.isModeling then
      let rd := dictUpdate rd (getSize row.item)
      let rd := dictSet rd "Type" (vStr "profile material")
      .ok (if rd.length > 2 then some rd else none)
    else if row.item.isSheetMetal then
      match dictGet rd "Material" with
      | none => .error "KeyError: Material"
      | some mat =>
        match pyStartsWith mat "Полоса" with
        | .error e => .error e
        | .ok true =>
          let vals := (getProperties row.item.propLookup
            ["Flat Pattern Length", "Flat Pattern Width"]).map (·.2)
          match pyMaxList vals with
          | .error e => .error e
          | .ok mx =>
            match pyMul mx (vInt 10) with
            | .error e => .error e
            | .ok sz =>
              match pyMinList vals with
              | .error e => .error e
              | .ok mn =>
                match pyMul mn (vInt 10) with
                | .error e => .error e
                | .ok sx =>
                  let rd := dictSet rd "Size Z" sz
                  let rd := dictSet rd "Size X" sx
                  let rd := dictSet rd "Size Y" (vInt 0)
                  let rd := dictSet rd "Type" (vStr "profile material")
                  .ok (if rd.length > 2 then some rd else none)
        | .ok false =>
          let rd := dictUpdate rd (getProperties row.item.propLookup flatMaterialProperties)
          let rd := dictSet rd "Type" (vStr "sheet material")
          .ok (if rd.length > 2 then some rd else none)
    else
      .ok (if rd.length > 2 then some rd else none)
  else
    .ok (if base.length > 2 then some base else none)

mutual

/-- One iteration of the loop body of ManagerBOM._collect_data for a single
row: purchased rows are classified without recursion; any other row first
recurses into its child rows with the effective quantity as the new
multiplier and only then classifies itself, appending its own record (when
any) after all the records of its descendants. The accumulated record list
is threaded explicitly; the second component is the pending Python
exception, which freezes the list as the walk unwinds. -/
def collectRow : BRow → ℤ → List Dict → List Dict × Option String
  | row@(BRow.mk _ _ _ children), mult, data =>
    let itemQ := row.itemQuantity * mult
    if row.isPurchased then
      match classifyRow row itemQ with
      | .ok (some r) => (data ++ [r], none)
      | .ok none => (data, none)
      | .error e => (data, some e)
    else
      match collectRows children itemQ data with
      | (data2, some e) => (data2, some e)
      | (data2, none) =>
        match classifyRow row itemQ with
        | .ok (some r) => (data2 ++ [r], none)
        | .ok none => (data2, none)
        | .error e => (data2, some e)

/-- ManagerBOM._collect_data over a row sequence: the empty sequence
returns at once (the recursion base case); otherwise rows are processed in
order, stopping at the first uncaught exception. -/
def collectRows : BRows → ℤ → List Dict → List Dict × Option String
  | .nil, _, data => (data, none)
  | .cons row rest, mult, data =>
    match collectRow row mult data with
    | (data2, some e) => (data2, some e)
    | (data2, none) => collectRows rest mult data2

end

/-! ## Aggregators (ManagerBOM._summarize_*) -/

/-- The lazy filter over self._data by record type, made strict in source
order: the dict access i of Type raises KeyError when a record lacks the
key. -/
def filterByType : List Dict → String → Except String (List Dict)
  | [], _ => .ok []
  | i :: rest, t =>
    match dictGet i "Type" with
    | none => .error "KeyError: Type"
    | some v =>
      match filterByType rest t with
      | .error e => .error e
      | .ok l => .ok (if pyEq v (vStr t) then i :: l else l)

/-- One summarised purchased line (the five-element list of
_summarize_purchased): description (or part number), project, vendor,
quantity and stock number. -/
structure PEntry where
  desc : PyVal
  project : PyVal
  vendor : PyVal
  qty : PyVal
  stock : PyVal
deriving DecidableEq, Repr

/-- The quantity computation of _summarize_purchased (lines 127 to 133):
float() on the unit-quantity string with its trailing spaces and м
characters stripped; a ValueError falls back to the bare int 1; either way
the result is multiplied by the item quantity. -/
def purchasedQuantity (item : Dict) : Except String PyVal := do
  let uq ← dictGetE item "Unit Quantity"
  let iq ← dictGetE item "Item Quantity"
  match uq with
  | vStr s =>
    match pyFloatParse (rstripSpaceM s) with
    | some q => pyMul (vFloat q) iq
    | none => pyMul (vInt 1) iq
  | _ => .error "AttributeError: object has no attribute rstrip"

/-- One filtered record folded into the purchased accumulator: every
already collected entry with the same description receives the new
quantity, and a new entry is appended when none matched. -/
def purchasedStep (entries : List PEntry) (item : Dict) :
    Except String (List PEntry) := do
  let project ← dictGetE item "Project"
  let vendor ← dictGetE item "Vendor"
  let stock ← dictGetE item "Stock Number"
  let quantity ← purchasedQuantity item
  let description ←
    if pyTruthy project || pyTruthy vendor then dictGetE item "Description"
    else dictGetE item "Part Number"
  let ne : PEntry := ⟨description, project, vendor, quantity, stock⟩
  let hit := entries.any (fun e => pyEq e.desc ne.desc)
  let entries2 ← entries.mapM (fun e =>
    if pyEq e.desc ne.desc then do pure { e with qty := (← pyAdd e.qty ne.qty) }
    else pure e)
  pure (if hit then entries2 else entries2 ++ [ne])

/-- The measured-quantity display step of _summarize_purchased: float
totals become a two-decimal string with the meter suffix, int totals stay
numeric. -/
def formatQty : PyVal → PyVal
  | vFloat q => vStr (formatF2 q ++ " м")
  | v => v

/-- Stable insertion of an element into a sorted list under a fallible
strict order: the element lands after every strictly smaller element and
before the first element not smaller than it, as the stable sort of the
source keeps equal keys in encounter order. -/
def pyInsertSorted (lt : α → α → Except String Bool) (x : α) :
    List α → Except String (List α)
  | [] => .ok [x]
  | y :: ys => do
    if (← lt y x) then do pure (y :: (← pyInsertSorted lt x ys))
    else pure (x :: y :: ys)

/-- Stable sort under a fallible strict order (list.sort of the source,
with a key function folded into the order). -/
def pySort (lt : α → α → Except String Bool) : List α → Except String (List α)
  | [] => .ok []
  | x :: xs => do pyInsertSorted lt x (← pySort lt xs)

/-- The sort order of _summarize_purchased: the key tuple (vendor,
description) compared the Python way, second component only when the first
components are equal. -/
def purchasedLt (a b : PEntry) : Except String Bool := do
  if pyEq a.vendor b.vendor then pyLt a.desc b.desc else pyLt a.vendor b.vendor

/-- ManagerBOM._summarize_purchased: filter the purchased records, merge by
description, replace measured float totals by formatted strings, and sort
by vendor then description. -/
def summarizePurchased (data : List Dict) : Except String (List PEntry) := do
  let items ← filterByType data "purchased"
  let entries ← items.foldlM purchasedStep []
  let entries := entries.map (fun e => { e with qty := formatQty e.qty })
  pySort purchasedLt entries

/-- One summarised unified line: part number, description, quantity. -/
structure UEntry where
  pn : PyVal
  udesc : PyVal
  uqty : PyVal
deriving DecidableEq, Repr

/-- The record filter of _summarize_unified: keep the records whose part
number starts with the standardized prefix МД1000, raising when a part
number is absent or not a string. -/
def filterUnified : List Dict → Except String (List Dict)
  | [] => .ok []
  | i :: rest =>
    match dictGetE i "Part Number" with
    | .error e => .error e
    | .ok pn =>
      match pyStartsWith pn "МД1000" with
      | .error e => .error e
      | .ok b =>
        match filterUnified rest with
        | .error e => .error e
        | .ok l => .ok (if b then i :: l else l)

/-- ManagerBOM._summarize_unified: keep the records whose part number
starts with the standardized prefix МД1000, merge by part number summing
item quantities, and sort by part number. -/
def summarizeUnified (data : List Dict) : Except String (List UEntry) := do
  let items ← filterUnified data
  let entries ← items.foldlM (fun entries item => do
    let pn ← dictGetE item "Part Number"
    let ds ← dictGetE item "Description"
    let qt ← dictGetE item "Item Quantity"
    let ne : UEntry := ⟨pn, ds, qt⟩
    let hit := entries.any (fun e => pyEq e.pn ne.pn)
    let entries2 ← entries.mapM (fun e =>
      if pyEq e.pn ne.pn then do pure { e with uqty := (← pyAdd e.uqty ne.uqty) }
      else pure e)
    pure (if hit then entries2 else entries2 ++ [ne])) []
  pySort (fun a b => pyLt a.pn b.pn) entries

/-- One summarised material line (sheet or profile): the material name
value, the mass total in kilograms, and the second total (area in square
metres for sheet, length in metres for profile). -/
structure MatEntry where
  material : PyVal
  massv : PyVal
  secondv : PyVal
deriving DecidableEq, Repr

/-- A reference held by the leaked loop variable of
_summarize_sheet_material after the merge loop: either the raw record dict
of the last filtered item (when the inner scan ran over an empty
accumulator) or an alias of the accumulator entry the scan stopped at. -/
abbrev StaleRef := Dict ⊕ ℕ

/-- One filtered record folded into the sheet-material accumulator,
tracking what the shared loop variable aliases afterwards: mass is
converted from grams to kilograms and area from square centimetres to
square metres, both scaled by the item quantity; entries merge by material
name equality. -/
def sheetStep (st : List MatEntry × Option StaleRef) (item : Dict) :
    Except String (List MatEntry × Option StaleRef) := do
  let entries := st.1
  let quantity ← dictGetE item "Item Quantity"
  let material ← dictGetE item "Material"
  let mass ← pyMul (← pyDiv (← dictGetE item "Mass") (vInt 1000)) quantity
  let area ← pyMul (← pyDiv (← dictGetE item "Flat Pattern Area") (vInt 10000)) quantity
  let stale : StaleRef :=
    if entries.isEmpty then Sum.inl item else Sum.inr (entries.length - 1)
  let hit := entries.any (fun e => pyEq e.material material)
  let entries2 ← entries.mapM (fun e =>
    if pyEq e.material material then do
      pure ⟨e.material, (← pyAdd e.massv mass), (← pyAdd e.secondv area)⟩
    else pure e)
  pure (if hit then (entries2, some stale) else (entries2 ++ [⟨material, mass, area⟩], some stale))

/-- ManagerBOM._summarize_sheet_material including its final rounding loop,
which reads the loop variable item left over from the merge loop instead of
the loop variable of the rounding loop itself: when at least one record was
summarised the loop body executes and either raises KeyError (the stale
variable still holds the record dict, which has no key 1) or rounds the one
aliased accumulator entry, leaving every other entry unrounded. -/
def summarizeSheetMaterial (data : List Dict) : Except String (List MatEntry) := do
  let items ← filterByType data "sheet material"
  let (entries, stale) ← items.foldlM sheetStep ([], none)
  if entries.isEmpty then pure entries
  else
    match stale with
    | some (Sum.inl _itemDict) => .error "KeyError: 1"
    | some (Sum.inr i) =>
      match entries.get? i with
      | some e => do
        pure (entries.set i ⟨e.material, (← pyRound2 e.massv), (← pyRound2 e.secondv)⟩)
      | none => pure entries
    | none => pure entries

/-- The re.match of _summarize_profile_material against the pattern of one
digit group, one arbitrary non-newline character and one optional digit
group: the captured groups under leftmost-greedy backtracking. With k
leading ASCII digits, the match keeps all k for the first group when a
non-newline character follows (the optional second group then takes the
digits after that separator), and otherwise backtracks so the first group
has k-1 digits; a name with no leading digit, or consisting of a single
digit only, does not match. -/
def reMatchProfile (s : String) : Option (String × Option String) :=
  let cs := s.data
  let d := cs.takeWhile Char.isDigit
  let rest := cs.drop d.length
  if d.isEmpty then none
  else
    match rest with
    | [] => if 2 ≤ d.length then some (String.mk d.dropLast, none) else none
    | c :: cs2 =>
      if c == '\n' then
        if 2 ≤ d.length then some (String.mk d.dropLast, none) else none
      else
        let d2 := cs2.takeWhile Char.isDigit
        some (String.mk d, if d2.isEmpty then none else some (String.mk d2))

/-- The ambiguity test of _summarize_profile_material: on a successful
match, Python in on the group tuple is membership, so the stringified Size
Z must equal one of the captured groups (None never equals a string); on a
failed match the AttributeError handler substitutes the empty string and in
becomes a substring test, true only for an empty probe. -/
def needsResolve (material : String) (sizeZstr : String) : Bool :=
  match reMatchProfile material with
  | some (g1, g2) => sizeZstr == g1 || (match g2 with
      | some t => sizeZstr == t
      | none => false)
  | none => sizeZstr == ""

/-- The axis answer of the interactive prompt; the retry loop of the source
only accepts these three. -/
inductive Axis where
  | X
  | Y
  | Z
deriving DecidableEq, Repr

/-- Render an axis as the size-key suffix. -/
def Axis.keyOf : Axis → String
  | .X => "Size X"
  | .Y => "Size Y"
  | .Z => "Size Z"

/-- One filtered record folded into the profile-material accumulator: mass
in kilograms scaled by quantity, and length in metres taken from the size
along the chosen axis, with the axis defaulting to Z and deferred to the
resolver exactly when the stringified Size Z hits the captured profile-size
groups (the prompt also reads the Part Number field of the record). -/
def profileStep (resolve : Dict → Axis) (entries : List MatEntry) (item : Dict) :
    Except String (List MatEntry) := do
  let quantity ← dictGetE item "Item Quantity"
  let materialV ← dictGetE item "Material"
  let mass ← pyMul (← pyDiv (← dictGetE item "Mass") (vInt 1000)) quantity
  let material ← match materialV with
    | vStr s => pure s
    | _ => Except.error "TypeError: expected string or bytes-like object"
  let sizeZ ← dictGetE item "Size Z"
  let axis ← do
    if needsResolve material (pyStr sizeZ) then do
      let _ ← dictGetE item "Part Number"
      pure (resolve item).keyOf
    else pure "Size Z"
  let length ← pyMul (← pyDiv (← dictGetE item axis) (vInt 1000)) quantity
  let hit := entries.any (fun e => pyEq e.material materialV)
  let entries2 ← entries.mapM (fun e =>
    if pyEq e.material materialV then do
      pure ⟨e.material, (← pyAdd e.massv mass), (← pyAdd e.secondv length)⟩
    else pure e)
  pure (if hit then entries2 else entries2 ++ [⟨materialV, mass, length⟩])

/-- ManagerBOM._summarize_profile_material: filter the profile records and
merge by material name; the output keeps encounter order (no sort). -/
def summarizeProfileMaterial (resolve : Dict → Axis) (data : List Dict) :
    Except String (List MatEntry) := do
  let items ← filterByType data "profile material"
  items.foldlM (profileStep resolve) []

/-! ## Report sink (ManagerBOM._transfer, _transfer_material, issue_bom) -/

/-- ManagerBOM._transfer: sequential writes starting at row 3, a running
1-based index in column A (column 1) and the fields of each summarised line
from column B (column 2) on; each write is recorded as (row, column,
value). -/
def transferSimple (data : List (List PyVal)) : List (ℕ × ℕ × PyVal) :=
  data.enum.flatMap (fun p =>
    (3 + p.1, 1, vInt (p.1 + 1)) ::
      p.2.enum.map (fun q => (3 + p.1, q.1 + 2, q.2)))

/-- The cell test of _transfer_material on one key-column cell: the cell
value must be truthy (a nonempty text) and the material of the entry must
start with it. -/
def cellMatch (cv : Option String) (material : PyVal) : Except String Bool :=
  match cv with
  | none => pure false
  | some s => if s == "" then pure false else pyStartsWith material s

/-- The key-column scan of _transfer_material for one entry: the cells
whose test passes, in top-down order, stopping at the first raising test. -/
def matchingCells (material : PyVal) :
    List (ℕ × Option String) → Except String (List (ℕ × Option String))
  | [] => .ok []
  | c :: rest =>
    match cellMatch c.2 material with
    | .error e => .error e
    | .ok b =>
      match matchingCells material rest with
      | .error e => .error e
      | .ok l => .ok (if b then c :: l else l)

/-- One summary entry processed by ManagerBOM._transfer_material over the
key column (column J, listed top-down, cell i holding row number i+1): the
entry is written (mass column D, second column G) to every row whose key
cell matches, as (row, mass value, second value) pairs, and appended to the
exceptions once when no row matched. -/
def transferStep (keyCol : List (Option String))
    (acc : List (ℕ × PyVal × PyVal) × List MatEntry) (item : MatEntry) :
    Except String (List (ℕ × PyVal × PyVal) × List MatEntry) := do
  let hits ← matchingCells item.material keyCol.enum
  let ws := hits.map (fun c => (c.1 + 1, item.massv, item.secondv))
  pure (acc.1 ++ ws, acc.2 ++ (if hits.isEmpty then [item] else []))

/-- The whole material transfer: fold every summary entry through the
template scan, starting from no writes and no exceptions. -/
def transferMaterial (keyCol : List (Option String)) (data : List MatEntry) :
    Except String (List (ℕ × PyVal × PyVal) × List MatEntry) :=
  data.foldlM (transferStep keyCol) ([], [])

/-- The template state issue_bom writes into: the key columns of the
profile-material and sheet-material sheets. -/
structure Template where
  profileKeys : List (Option String)
  sheetKeys : List (Option String)

/-- The value returned by the issue operation in this model: the material
writes of the two matched sheets, the sequential writes of the purchased
and unified sheets, and the accumulated exceptions. -/
structure IssueResult where
  profileWrites : List (ℕ × PyVal × PyVal)
  sheetWrites : List (ℕ × PyVal × PyVal)
  purchasedWrites : List (ℕ × ℕ × PyVal)
  unifiedWrites : List (ℕ × ℕ × PyVal)
  leftovers : List MatEntry
deriving DecidableEq, Repr

/-- ManagerBOM.issue_bom with all four transfers enabled (the default
flags): collect the data from the given rows with multiplier 1, then
transfer profile material, sheet material, purchased and unified in that
order; any uncaught Python exception aborts the whole call. -/
def issueBom (tmpl : Template) (resolve : Dict → Axis) (rows : BRows) :
    Except String IssueResult := do
  let (data, err) := collectRows rows 1 []
  match err with
  | some e => Except.error e
  | none => do
    let prof ← summarizeProfileMaterial resolve data
    let (wp, e1) ← transferMaterial tmpl.profileKeys prof
    let sh ← summarizeSheetMaterial data
    let (ws, e2) ← transferMaterial tmpl.sheetKeys sh
    let pu ← summarizePurchased data
    let wpu := transferSimple (pu.map (fun e => [e.desc, e.project, e.vendor, e.qty, e.stock]))
    let un ← summarizeUnified data
    let wun := transferSimple (un.map (fun e => [e.pn, e.udesc, e.uqty]))
    pure ⟨wp, ws, wpu, wun, e1 ++ e2⟩

/-! ## Derived and specification-side definitions used by the theorems -/

/-- The record a purchased row always yields: the two common fields, the
purchasing property subset fetched through get_properties, and the
purchased type tag, in insertion order. -/
def purchasedRecord (row : BRow) (itemQ : ℤ) : Dict :=
  [("Unit Quantity", vStr row.item.unitQuantity), ("Item Quantity", vInt itemQ)] ++
    getProperties row.item.propLookup purchasedItemProperties ++
    [("Type", vStr "purchased")]

/-- The one-or-zero-record list a row contributes for itself: the record of
classifyRow when it produced one, nothing when the row added no category
data or raised. -/
def classifyList (row : BRow) (q : ℤ) : List Dict :=
  match classifyRow row q with
  | .ok (some r) => [r]
  | _ => []

/-- Product of the item quantities of the nodes visited along a child-index
path starting at (and including) the given row; none when the path leaves
the tree. -/
def treePathProd : BRow → List ℕ → Option ℤ
  | BRow.mk q _ _ _, [] => some q
  | BRow.mk q _ _ children, i :: p =>
    match children.nth i with
    | none => none
    | some c => (treePathProd c p).map (fun m => q * m)

/-- Product of the item quantities along a nonempty child-index path into a
row forest: the head index picks the root, the rest descends. -/
def forestPathProd (rows : BRows) : List ℕ → Option ℤ
  | [] => none
  | i :: p =>
    match rows.nth i with
    | none => none
    | some r => treePathProd r p

/-- The row sitting at a child-index path below a given row (the empty path
is the row itself). -/
def treeNode : BRow → List ℕ → Option BRow
  | row, [] => some row
  | BRow.mk _ _ _ children, i :: p =>
    match children.nth i with
    | none => none
    | some c => treeNode c p

/-- The row sitting at a nonempty child-index path into a row forest. -/
def forestNode (rows : BRows) : List ℕ → Option BRow
  | [] => none
  | i :: p =>
    match rows.nth i with
    | none => none
    | some r => treeNode r p

/-- Modelled from the spec: the leading numeric token of a material name,
of the form digits[.digits] — the maximal leading digit run, extended by a
dot and a following digit run when literally present. -/
def specLeadingToken (m : String) : String :=
  let d := m.data.takeWhile Char.isDigit
  let rest := m.data.drop d.length
  match rest with
  | c :: cs =>
    if c == '.' then
      let d2 := cs.takeWhile Char.isDigit
      if d2.isEmpty then String.mk d else String.mk (d ++ [c] ++ d2)
    else String.mk d
  | [] => String.mk d

/-- Contiguous-substring test on character lists. -/
def listInfixB (small : List Char) : List Char → Bool
  | [] => small.isEmpty
  | c :: t => small.isPrefixOf (c :: t) || listInfixB small t

/-- Modelled from the spec: the disambiguation request is triggered exactly
when the stringified Size Z appears as a substring of the leading numeric
token parsed from the material name; with no leading numeric token there is
nothing to hit. -/
def specNeedsResolve (m : String) (sizeZstr : String) : Bool :=
  let d := m.data.takeWhile Char.isDigit
  if d.isEmpty then false
  else listInfixB sizeZstr.data (specLeadingToken m).data

/-- The trigger condition the source actually implements, spelled out on
the material name: with k leading ASCII digits followed by a non-newline
separator character, the probe must equal the whole digit run or the digit
run right after the separator; with the digits at the very end (or before a
newline) the probe must equal the run short of its last digit, which needs
at least two digits, the probe otherwise hitting only when empty (the
same degenerate empty-probe case as a name with no leading digit, which a
stringified size never produces). -/
def amendedTrigger (m : String) (sizeZstr : String) : Bool :=
  let d := m.data.takeWhile Char.isDigit
  let rest := m.data.drop d.length
  if d.isEmpty then sizeZstr == ""
  else
    match rest with
    | [] =>
      if 2 ≤ d.length then sizeZstr.data == d.dropLast else sizeZstr == ""
    | c :: cs2 =>
      if c == '\n' then
        (if 2 ≤ d.length then sizeZstr.data == d.dropLast else sizeZstr == "")
      else
        sizeZstr.data == d ||
          (let d2 := cs2.takeWhile Char.isDigit
           !d2.isEmpty && sizeZstr.data == d2)

/-- Modelled from the spec: a unit-quantity string that is a number
followed by the meter-unit suffix (the suffix written as one space and the
Cyrillic letter м, as in the worked example 2.5 м). -/
def specMeasuredUnit (s : String) : Bool :=
  (" м".data.isSuffixOf s.data) &&
    (pyFloatParse (String.mk (s.data.take (s.data.length - 2)))).isSome

/-- The quantity one purchased record contributes, as the source computes
it: when float() succeeds on the unit-quantity string with every trailing
space and м stripped, the parsed value times the item quantity, displayed
with two decimals and the meter suffix; otherwise the bare integer item
quantity. -/
def amendedQty (s : String) (n : ℤ) : PyVal :=
  match pyFloatParse (rstripSpaceM s) with
  | some q => vStr (formatF2 (q * (n : ℚ)) ++ " м")
  | none => vInt n

/-- The matching rule of the material transfer on values, as the claim
states it: the key cell holds nonempty text and the entry material starts
with it (false on a missing cell or a non-string material). -/
def specCellMatchV (cv : Option String) (mv : PyVal) : Bool :=
  match cv, mv with
  | some s, vStr m => !(s == "") && s.data.isPrefixOf m.data
  | _, _ => false

/-! ## Concrete fixtures -/

/-- A property lookup placing the given pairs in the main property set
(Design Tracking Properties) and failing everywhere else. -/
def mkLookup (l : List (String × PyVal)) : String → String → Option PyVal :=
  fun t p => if t == "Design Tracking Properties" then (l.find? (·.1 == p)).map (·.2) else none

/-- The purchased item of the end-to-end test of the spec: part P-1, no
project, vendor or stock data, no unit quantity. -/
def purchItem : ItemModel :=
  { unitQuantity := ""
    subType := "other"
    propLookup := mkLookup [("Part Number", vStr "P-1"), ("Description", vStr "P-1"),
      ("Project", vStr ""), ("Vendor", vStr ""), ("Stock Number", vStr "")]
    rbMin := fun _ => 0
    rbMax := fun _ => 0 }

/-- The sheet-metal item of the end-to-end test: material Sheet-A (not a
strip), mass 100 g, flat-pattern area 500 cm². -/
def sheetItem : ItemModel :=
  { unitQuantity := ""
    subType := subTypeSheetMetal
    propLookup := mkLookup [("Part Number", vStr "S-1"), ("Description", vStr "S-1"),
      ("Material", vStr "Sheet-A"), ("Mass", vInt 100),
      ("Flat Pattern Width", vInt 10), ("Flat Pattern Length", vInt 50),
      ("Flat Pattern Area", vInt 500)]
    rbMin := fun _ => 0
    rbMax := fun _ => 0 }

/-- The two-level row forest of the end-to-end test: one purchased child
with quantity 3 and one normal sheet-metal child with quantity 2 under the
root assembly. -/
def specRows : BRows :=
  BRows.ofList [BRow.mk 3 (some "purchased") purchItem .nil,
    BRow.mk 2 (some "normal") sheetItem .nil]

/-- A bare sheet-material record with the given material name and mass,
quantity 1 and area 0, as the aggregators receive it. -/
def sheetProbe (m : String) (mass : PyVal) : Dict :=
  [("Type", vStr "sheet material"), ("Item Quantity", vInt 1), ("Material", vStr m),
   ("Mass", mass), ("Flat Pattern Area", vInt 0)]

/-- A property lookup under which Vendor resolves to ACME in the main set
and every other property fails in all four sets. -/
def exLookup : String → String → Option PyVal :=
  fun t p =>
    if t == "Design Tracking Properties" && p == "Vendor" then some (vStr "ACME") else none

/-- A bare purchased record with the given unit-quantity string and item
quantity, empty project, vendor and stock. -/
def purchRec (uq : String) (n : ℤ) : Dict :=
  [("Type", vStr "purchased"), ("Unit Quantity", vStr uq), ("Item Quantity", vInt n),
   ("Part Number", vStr "P"), ("Description", vStr "D"), ("Project", vStr ""),
   ("Vendor", vStr ""), ("Stock Number", vStr "")]

/-- A modeling-part item (part number ROOT) with a unit bounding box. -/
def modItem : ItemModel :=
  { unitQuantity := ""
    subType := subTypeModeling
    propLookup := mkLookup [("Part Number", vStr "ROOT"), ("Description", vStr "R"),
      ("Material", vStr "Steel"), ("Mass", vInt 10)]
    rbMin := fun _ => 0
    rbMax := fun _ => 1 }

/-- A purchased item named CHILD. -/
def purchChildItem : ItemModel :=
  { unitQuantity := ""
    subType := "other"
    propLookup := mkLookup [("Part Number", vStr "CHILD"), ("Description", vStr "C"),
      ("Project", vStr ""), ("Vendor", vStr ""), ("Stock Number", vStr "")]
    rbMin := fun _ => 0
    rbMax := fun _ => 0 }

/-- A normal modeling-part row (quantity 2) that itself emits a record and
whose only child is a purchased row (quantity 3) that also emits one. -/
def exTree : BRow :=
  BRow.mk 2 (some "normal") modItem
    (BRows.cons (BRow.mk 3 (some "purchased") purchChildItem .nil) .nil)

/-- The record the purchased child of exTree emits (child quantity 3 times
parent quantity 2). -/
def exChildRec : Dict :=
  [("Unit Quantity", vStr ""), ("Item Quantity", vInt 6),
   ("Part Number", vStr "CHILD"), ("Description", vStr "C"), ("Project", vStr ""),
   ("Vendor", vStr ""), ("Stock Number", vStr ""), ("Type", vStr "purchased")]

/-- A purchased row with quantity 3 and a nonempty child sequence. -/
def purchRowWithChild : BRow :=
  BRow.mk 3 (some "purchased") purchItem
    (BRows.cons (BRow.mk 2 (some "normal") sheetItem .nil) .nil)

/-- Key column of the transfer witness: the two template keys of the spec
example and one empty cell. -/
def keyColEx : List (Option String) := [some "Steel 10", some "Steel 2", none]

/-- Summary entries of the transfer witness: one matching Steel 10x20 entry
and one unmatched Copper entry. -/
def matEntriesEx : List MatEntry :=
  [⟨vStr "Steel 10x20", vFloat 1, vFloat 2⟩, ⟨vStr "Copper", vFloat 3, vFloat 4⟩]


/-- A profile-material record whose material name 20x40 makes the regex
capture the groups 20 and 40, and whose Size Z equals 40: the source
requests disambiguation although 40 is no substring of the leading numeric
token 20. -/
def profRec40 : Dict :=
  [("Type", vStr "profile material"), ("Item Quantity", vInt 1),
   ("Material", vStr "20x40"), ("Mass", vInt 0),
   ("Size X", vInt 100), ("Size Y", vInt 20), ("Size Z", vInt 40),
   ("Part Number", vStr "PR")]

/-- A profile-material record whose material name has no leading digit, so
the default Z axis is used without any disambiguation request. -/
def profRecEx : Dict :=
  [("Type", vStr "profile material"), ("Item Quantity", vInt 2),
   ("Material", vStr "Труба 20x40"), ("Mass", vInt 500),
   ("Size X", vInt 40), ("Size Y", vInt 20), ("Size Z", vInt 1000),
   ("Part Number", vStr "PN")]
/-! ## Dictionary lemmas -/

theorem dictGet_set_self (d : Dict) (k : String) (v : PyVal) :
    dictGet (dictSet d k v) k = some v := by
  induction d with
  | nil => simp [dictSet, dictGet]
  | cons p t ih =>
    obtain ⟨k2, v2⟩ := p
    by_cases h : k2 = k
    · simp [dictSet, dictGet, h]
    · simp [dictSet, dictGet, h, ih]

theorem dictGet_set_ne (d : Dict) (k2 k : String) (v : PyVal) (h : k2 ≠ k) :
    dictGet (dictSet d k2 v) k = dictGet d k := by
  induction d with
  | nil => simp [dictSet, dictGet, h]
  | cons p t ih =>
    obtain ⟨k3, v3⟩ := p
    by_cases h3 : k3 = k2
    · simp [dictSet, dictGet, h3, h]
    · by_cases h4 : k3 = k
      · simp [dictSet, dictGet, h3, h4, Ne.symm h]
      · simp [dictSet, dictGet, h3, h4, ih]

theorem dictGet_of_not_mem_fst (d : Dict) (k : String) (h : k ∉ d.map Prod.fst) :
    dictGet d k = none := by
  induction d with
  | nil => simp [dictGet]
  | cons p t ih =>
    obtain ⟨k2, v2⟩ := p
    simp only [List.map_cons, List.mem_cons] at h
    push_neg at h
    simp [dictGet, Ne.symm h.1, ih h.2]

theorem dictSet_fresh (d : Dict) (k : String) (v : PyVal) (h : dictGet d k = none) :
    dictSet d k v = d ++ [(k, v)] := by
  induction d with
  | nil => simp [dictSet]
  | cons p t ih =>
    obtain ⟨k2, v2⟩ := p
    by_cases h2 : k2 = k
    · simp [dictGet, h2] at h
    · simp [dictGet, h2] at h
      simp [dictSet, h2, ih h]

theorem dictGet_append_left (d1 d2 : Dict) (k : String) (v : PyVal)
    (h : dictGet d1 k = some v) : dictGet (d1 ++ d2) k = some v := by
  induction d1 with
  | nil => simp [dictGet] at h
  | cons p t ih =>
    obtain ⟨k2, v2⟩ := p
    by_cases h2 : k2 = k
    · simp [dictGet, h2] at h ⊢; exact h
    · simp [dictGet, h2] at h ⊢; exact ih h

theorem dictGet_append_right (d1 d2 : Dict) (k : String)
    (h : dictGet d1 k = none) : dictGet (d1 ++ d2) k = dictGet d2 k := by
  induction d1 with
  | nil => simp [dictGet]
  | cons p t ih =>
    obtain ⟨k2, v2⟩ := p
    by_cases h2 : k2 = k
    · simp [dictGet, h2] at h
    · simp [dictGet, h2] at h ⊢; exact ih h

theorem dictGet_update_not_mem (us : List (String × PyVal)) (d : Dict) (k : String)
    (h : k ∉ us.map Prod.fst) : dictGet (dictUpdate d us) k = dictGet d k := by
  induction us generalizing d with
  | nil => simp [dictUpdate]
  | cons u rest ih =>
    obtain ⟨k2, v2⟩ := u
    simp only [List.map_cons, List.mem_cons] at h
    push_neg at h
    have : dictUpdate d ((k2, v2) :: rest) = dictUpdate (dictSet d k2 v2) rest := by
      simp [dictUpdate]
    rw [this, ih _ h.2, dictGet_set_ne _ _ _ _ (Ne.symm h.1)]

theorem dictGet_update_mem_isSome (us : List (String × PyVal)) (d : Dict) (k : String)
    (h : k ∈ us.map Prod.fst) : (dictGet (dictUpdate d us) k).isSome := by
  induction us generalizing d with
  | nil => simp at h
  | cons u rest ih =>
    obtain ⟨k2, v2⟩ := u
    have hstep : dictUpdate d ((k2, v2) :: rest) = dictUpdate (dictSet d k2 v2) rest := by
      simp [dictUpdate]
    by_cases hr : k ∈ rest.map Prod.fst
    · rw [hstep]; exact ih _ hr
    · simp only [List.map_cons, List.mem_cons] at h
      rcases h with h | h
      · rw [hstep, dictGet_update_not_mem _ _ _ hr, h, dictGet_set_self]
        simp
      · exact absurd h hr

theorem dictUpdate_fresh (us : List (String × PyVal)) (d : Dict)
    (hn : (us.map Prod.fst).Nodup) (hf : ∀ k ∈ us.map Prod.fst, dictGet d k = none) :
    dictUpdate d us = d ++ us := by
  induction us generalizing d with
  | nil => simp [dictUpdate]
  | cons u rest ih =>
    obtain ⟨k2, v2⟩ := u
    simp only [List.map_cons, List.nodup_cons] at hn
    have hstep : dictUpdate d ((k2, v2) :: rest) = dictUpdate (dictSet d k2 v2) rest := by
      simp [dictUpdate]
    have hfresh : dictSet d k2 v2 = d ++ [(k2, v2)] :=
      dictSet_fresh _ _ _ (hf k2 (by simp))
    rw [hstep, hfresh, ih _ hn.2]
    · simp
    · intro k hk
      rw [dictGet_append_right _ _ _ (hf k (by simp [hk]))]
      apply dictGet_of_not_mem_fst
      simp only [List.map_cons, List.map_nil, List.mem_singleton]
      intro hkk
      exact hn.1 (hkk ▸ hk)

theorem getPropsGo_fst (lookup : String → String → Option PyVal) (v : PyVal)
    (ps : List String) : (getPropsGo lookup v ps).map Prod.fst = ps := by
  induction ps generalizing v with
  | nil => simp [getPropsGo]
  | cons p rest ih => simp [getPropsGo, ih]

theorem getProperties_fst (lookup : String → String → Option PyVal)
    (ps : List String) : (getProperties lookup ps).map Prod.fst = ps :=
  getPropsGo_fst lookup vNone ps

theorem getProperties_length (lookup : String → String → Option PyVal)
    (ps : List String) : (getProperties lookup ps).length = ps.length := by
  have := getProperties_fst lookup ps
  calc (getProperties lookup ps).length
      = ((getProperties lookup ps).map Prod.fst).length := by simp
    _ = ps.length := by rw [this]

mutual

theorem collectRow_append (row : BRow) (mult : ℤ) (data : List Dict) :
    collectRow row mult data =
      (data ++ (collectRow row mult []).1, (collectRow row mult []).2) := by
  cases row with
  | mk q bs it children =>
    by_cases hp : (BRow.mk q bs it children).isPurchased
    · rw [collectRow, collectRow]
      cases hcl : classifyRow (BRow.mk q bs it children)
          ((BRow.mk q bs it children).itemQuantity * mult) with
      | ok o => cases o <;> simp [hp, hcl]
      | error e => simp [hp, hcl]
    · rw [collectRow, collectRow]
      simp only [hp, Bool.false_eq_true, if_false]
      rcases hX : collectRows children ((BRow.mk q bs it children).itemQuantity * mult) []
        with ⟨xs, xe⟩
      rw [collectRows_append children ((BRow.mk q bs it children).itemQuantity * mult) data, hX]
      cases xe with
      | some e => simp
      | none =>
        cases hcl : classifyRow (BRow.mk q bs it children)
            ((BRow.mk q bs it children).itemQuantity * mult) with
        | ok o => cases o <;> simp [hcl]
        | error e => simp [hcl]

theorem collectRows_append (rows : BRows) (mult : ℤ) (data : List Dict) :
    collectRows rows mult data =
      (data ++ (collectRows rows mult []).1, (collectRows rows mult []).2) := by
  cases rows with
  | nil => simp [collectRows]
  | cons row rest =>
    rw [collectRows, collectRows]
    rcases hR : collectRow row mult [] with ⟨ys, ye⟩
    rw [collectRow_append row mult data, hR]
    cases ye with
    | some e => simp
    | none =>
      simp only
      rw [collectRows_append rest mult (data ++ ys), collectRows_append rest mult ys]
      simp

end

theorem classifyRow_ok_some (row : BRow) (q : ℤ) (r : Dict)
    (h : classifyRow row q = .ok (some r)) :
    dictGet r "Item Quantity" = some (vInt q) ∧
    (dictGet r "Part Number").isSome ∧
    (dictGet r "Type" = some (vStr "purchased") ∨
     dictGet r "Type" = some (vStr "profile material") ∨
     dictGet r "Type" = some (vStr "sheet material")) := by
  have hIQbase : ∀ u : String, dictGet [("Unit Quantity", vStr u), ("Item Quantity", vInt q)]
      "Item Quantity" = some (vInt q) := fun u => rfl
  simp only [classifyRow] at h
  split at h
  case isTrue hp =>
    -- purchased branch
    split at h
    case isTrue hl =>
      obtain rfl : _ = r := by injection h with h2; injection h2
      refine ⟨?_, ?_, Or.inl ?_⟩
      · rw [dictGet_set_ne _ _ _ _ (by decide),
          dictGet_update_not_mem _ _ _ (by rw [getProperties_fst]; decide)]
        exact hIQbase _
      · rw [dictGet_set_ne _ _ _ _ (by decide)]
        exact dictGet_update_mem_isSome _ _ _ (by rw [getProperties_fst]; decide)
      · exact dictGet_set_self _ _ _
    case isFalse hl => simp at h
  case isFalse hp =>
    split at h
    case isTrue hnp =>
      split at h
      case isTrue hm =>
        -- modeling branch
        split at h
        case isTrue hl =>
          obtain rfl : _ = r := by injection h with h2; injection h2
          refine ⟨?_, ?_, Or.inr (Or.inl ?_)⟩
          · rw [dictGet_set_ne _ _ _ _ (by decide),
              dictGet_update_not_mem _ _ _ (by simp [getSize]),
              dictGet_update_not_mem _ _ _ (by rw [getProperties_fst]; decide)]
            exact hIQbase _
          · rw [dictGet_set_ne _ _ _ _ (by decide),
              dictGet_update_not_mem _ _ _ (by simp [getSize])]
            exact dictGet_update_mem_isSome _ _ _ (by rw [getProperties_fst]; decide)
          · exact dictGet_set_self _ _ _
        case isFalse hl => simp at h
      case isFalse hm =>
        split at h
        case isTrue hs =>
          -- sheet-metal branch
          split at h
          case h_1 => simp at h
          case h_2 mat hmat =>
            split at h
            case h_1 => simp at h
            case h_2 hsw =>
              -- strip sub-branch
              split at h
              case h_1 => simp at h
              case h_2 mx hmx =>
                split at h
                case h_1 => simp at h
                case h_2 sz hsz =>
                  split at h
                  case h_1 => simp at h
                  case h_2 mn hmn =>
                    split at h
                    case h_1 => simp at h
                    case h_2 sx hsx =>
                      split at h
                      case isTrue hl =>
                        obtain rfl : _ = r := by injection h with h2; injection h2
                        refine ⟨?_, ?_, Or.inr (Or.inl ?_)⟩
                        · rw [dictGet_set_ne _ _ _ _ (by decide),
                            dictGet_set_ne _ _ _ _ (by decide),
                            dictGet_set_ne _ _ _ _ (by decide),
                            dictGet_set_ne _ _ _ _ (by decide),
                            dictGet_update_not_mem _ _ _ (by rw [getProperties_fst]; decide)]
                          exact hIQbase _
                        · rw [dictGet_set_ne _ _ _ _ (by decide),
                            dictGet_set_ne _ _ _ _ (by decide),
                            dictGet_set_ne _ _ _ _ (by decide),
                            dictGet_set_ne _ _ _ _ (by decide)]
                          exact dictGet_update_mem_isSome _ _ _
                            (by rw [getProperties_fst]; decide)
                        · exact dictGet_set_self _ _ _
                      case isFalse hl => simp at h
            case h_3 hsw =>
              -- plain sheet sub-branch
              split at h
              case isTrue hl =>
                obtain rfl : _ = r := by injection h with h2; injection h2
                refine ⟨?_, ?_, Or.inr (Or.inr ?_)⟩
                · rw [dictGet_set_ne _ _ _ _ (by decide),
                    dictGet_update_not_mem _ _ _ (by rw [getProperties_fst]; decide),
                    dictGet_update_not_mem _ _ _ (by rw [getProperties_fst]; decide)]
                  exact hIQbase _
                · rw [dictGet_set_ne _ _ _ _ (by decide),
                    dictGet_update_not_mem _ _ _ (by rw [getProperties_fst]; decide)]
                  exact dictGet_update_mem_isSome _ _ _ (by rw [getProperties_fst]; decide)
                · exact dictGet_set_self _ _ _
              case isFalse hl => simp at h
        case isFalse hs =>
          -- unreachable: a part is modeling or sheet metal
          exfalso
          have : row.item.isPart = true := by
            rcases Bool.and_eq_true_iff.mp hnp with ⟨_, hpart⟩
            exact hpart
          simp [ItemModel.isPart, hm, hs] at this
    case isFalse hnp =>
      split at h
      case isTrue hl => simp at hl
      case isFalse hl => simp at h

theorem dictGet_mem_fst_isSome (d : Dict) (k : String) (h : k ∈ d.map Prod.fst) :
    (dictGet d k).isSome := by
  induction d with
  | nil => simp at h
  | cons p t ih =>
    obtain ⟨k2, v2⟩ := p
    by_cases h2 : k2 = k
    · simp [dictGet, h2]
    · simp only [List.map_cons, List.mem_cons] at h
      rcases h with h | h
      · exact absurd h.symm h2
      · simp [dictGet, h2, ih h]

theorem classifyRow_purchased_eq (row : BRow) (q : ℤ) (hp : row.isPurchased = true) :
    classifyRow row q = .ok (some (purchasedRecord row q)) := by
  have hfst := getProperties_fst row.item.propLookup purchasedItemProperties
  have hlen := getProperties_length row.item.propLookup purchasedItemProperties
  have h1 : dictUpdate [("Unit Quantity", vStr row.item.unitQuantity),
      ("Item Quantity", vInt q)] (getProperties row.item.propLookup purchasedItemProperties) =
      [("Unit Quantity", vStr row.item.unitQuantity), ("Item Quantity", vInt q)] ++
        getProperties row.item.propLookup purchasedItemProperties := by
    apply dictUpdate_fresh
    · rw [hfst]; decide
    · intro k hk
      rw [hfst] at hk
      fin_cases hk <;> rfl
  have h2 : dictGet ([("Unit Quantity", vStr row.item.unitQuantity),
      ("Item Quantity", vInt q)] ++ getProperties row.item.propLookup purchasedItemProperties)
      "Type" = none := by
    rw [dictGet_append_right _ _ _ (by rfl)]
    apply dictGet_of_not_mem_fst
    rw [hfst]; decide
  simp only [classifyRow, hp, if_true]
  rw [h1, dictSet_fresh _ _ _ h2]
  have hl : (([("Unit Quantity", vStr row.item.unitQuantity), ("Item Quantity", vInt q)] ++
      getProperties row.item.propLookup purchasedItemProperties) ++
      [("Type", vStr "purchased")]).length = 8 := by
    have hlen5 : (getProperties row.item.propLookup purchasedItemProperties).length = 5 := by
      rw [hlen]; rfl
    simp [hlen5]
  rw [if_pos (by rw [hl]; norm_num)]
  simp [purchasedRecord]


mutual

theorem collectRow_qty_aux (row : BRow) (mult : ℤ) (rec : Dict)
    (h : rec ∈ (collectRow row mult []).1) :
    ∃ p r2 qq, treeNode row p = some r2 ∧ treePathProd row p = some qq ∧
      classifyRow r2 (qq * mult) = .ok (some rec) ∧
      dictGet rec "Item Quantity" = some (vInt (qq * mult)) := by
  cases row with
  | mk q bs it children =>
    rw [collectRow] at h
    by_cases hp : (BRow.mk q bs it children).isPurchased
    · rw [if_pos hp] at h
      cases hcl : classifyRow (BRow.mk q bs it children)
          ((BRow.mk q bs it children).itemQuantity * mult) with
      | ok o =>
        cases o with
        | some r =>
          rw [hcl] at h
          simp only [List.nil_append, List.mem_singleton] at h
          subst h
          refine ⟨[], BRow.mk q bs it children, q, rfl, rfl, ?_, ?_⟩
          · simpa only [BRow.itemQuantity] using hcl
          · simpa only [BRow.itemQuantity] using (classifyRow_ok_some _ _ _ hcl).1
        | none => rw [hcl] at h; simp at h
      | error e => rw [hcl] at h; simp at h
    · rw [if_neg hp] at h
      rcases hX : collectRows children ((BRow.mk q bs it children).itemQuantity * mult) []
        with ⟨xs, xe⟩
      rw [hX] at h
      have hchild : ∀ rec2, rec2 ∈ xs →
          ∃ p r2 qq, treeNode (BRow.mk q bs it children) p = some r2 ∧
            treePathProd (BRow.mk q bs it children) p = some qq ∧
            classifyRow r2 (qq * mult) = .ok (some rec2) ∧
            dictGet rec2 "Item Quantity" = some (vInt (qq * mult)) := by
        intro rec2 hr
        have hmem : rec2 ∈ (collectRows children
            ((BRow.mk q bs it children).itemQuantity * mult) []).1 := by rw [hX]; exact hr
        obtain ⟨p, r2, qq, hnode, hpath, hcls, hget⟩ := collectRows_qty_aux children _ rec2 hmem
        cases p with
        | nil => simp [forestNode] at hnode
        | cons i p2 =>
          simp only [forestNode] at hnode
          simp only [forestPathProd] at hpath
          cases hnth : children.nth i with
          | none => rw [hnth] at hnode; simp at hnode
          | some c =>
            rw [hnth] at hnode hpath
            have hnode2 : treeNode c p2 = some r2 := hnode
            have hpath2 : treePathProd c p2 = some qq := hpath
            have harith : q * qq * mult =
                qq * ((BRow.mk q bs it children).itemQuantity * mult) := by
              simp only [BRow.itemQuantity]; ring
            refine ⟨i :: p2, r2, q * qq, ?_, ?_, ?_, ?_⟩
            · show (match children.nth i with
                | none => none
                | some c => treeNode c p2) = some r2
              rw [hnth]; exact hnode2
            · simp only [treePathProd, hnth]
              rw [hpath2]; rfl
            · rw [harith]; exact hcls
            · rw [harith]; exact hget
      cases xe with
      | some e => exact hchild rec h
      | none =>
        cases hcl : classifyRow (BRow.mk q bs it children)
            ((BRow.mk q bs it children).itemQuantity * mult) with
        | ok o =>
          cases o with
          | some r =>
            rw [hcl] at h
            simp only [List.mem_append, List.mem_singleton] at h
            rcases h with h | h
            · exact hchild rec h
            · subst h
              refine ⟨[], BRow.mk q bs it children, q, rfl, rfl, ?_, ?_⟩
              · simpa only [BRow.itemQuantity] using hcl
              · simpa only [BRow.itemQuantity] using (classifyRow_ok_some _ _ _ hcl).1
          | none => rw [hcl] at h; exact hchild rec h
        | error e => rw [hcl] at h; exact hchild rec h

theorem collectRows_qty_aux (rows : BRows) (mult : ℤ) (rec : Dict)
    (h : rec ∈ (collectRows rows mult []).1) :
    ∃ p row qq, forestNode rows p = some row ∧ forestPathProd rows p = some qq ∧
      classifyRow row (qq * mult) = .ok (some rec) ∧
      dictGet rec "Item Quantity" = some (vInt (qq * mult)) := by
  cases rows with
  | nil => rw [collectRows] at h; simp at h
  | cons row rest =>
    rw [collectRows] at h
    rcases hR : collectRow row mult [] with ⟨ys, ye⟩
    rw [hR] at h
    have hhead : ∀ rec2, rec2 ∈ ys →
        ∃ p r2 qq, forestNode (BRows.cons row rest) p = some r2 ∧
          forestPathProd (BRows.cons row rest) p = some qq ∧
          classifyRow r2 (qq * mult) = .ok (some rec2) ∧
          dictGet rec2 "Item Quantity" = some (vInt (qq * mult)) := by
      intro rec2 hr
      have hmem : rec2 ∈ (collectRow row mult []).1 := by rw [hR]; exact hr
      obtain ⟨p, r2, qq, hnode, hpath, hcls, hget⟩ := collectRow_qty_aux row mult rec2 hmem
      exact ⟨0 :: p, r2, qq, by simpa [forestNode, BRows.nth] using hnode,
        by simpa [forestPathProd, BRows.nth] using hpath, hcls, hget⟩
    cases ye with
    | some e => exact hhead rec h
    | none =>
      have h2 : rec ∈ (collectRows rest mult ys).1 := h
      rw [collectRows_append rest mult ys] at h2
      simp only [List.mem_append] at h2
      rcases h2 with h2 | h2
      · exact hhead rec h2
      · obtain ⟨p, r2, qq, hnode, hpath, hcls, hget⟩ := collectRows_qty_aux rest mult rec h2
        cases p with
        | nil => simp [forestNode] at hnode
        | cons i p2 =>
          refine ⟨(i + 1) :: p2, r2, qq, ?_, ?_, hcls, hget⟩
          · simpa [forestNode, BRows.nth] using hnode
          · simpa [forestPathProd, BRows.nth] using hpath

end

mutual

theorem collectRow_inv_aux (row : BRow) (mult : ℤ) (rec : Dict)
    (h : rec ∈ (collectRow row mult []).1) :
    (dictGet rec "Type" = some (vStr "purchased") ∨
     dictGet rec "Type" = some (vStr "profile material") ∨
     dictGet rec "Type" = some (vStr "sheet material")) ∧
    (dictGet rec "Part Number").isSome := by
  cases row with
  | mk q bs it children =>
    rw [collectRow] at h
    by_cases hp : (BRow.mk q bs it children).isPurchased
    · rw [if_pos hp] at h
      cases hcl : classifyRow (BRow.mk q bs it children)
          ((BRow.mk q bs it children).itemQuantity * mult) with
      | ok o =>
        cases o with
        | some r =>
          rw [hcl] at h
          simp only [List.nil_append, List.mem_singleton] at h
          subst h
          obtain ⟨_, hpn, hty⟩ := classifyRow_ok_some _ _ _ hcl
          exact ⟨hty, hpn⟩
        | none => rw [hcl] at h; simp at h
      | error e => rw [hcl] at h; simp at h
    · rw [if_neg hp] at h
      rcases hX : collectRows children ((BRow.mk q bs it children).itemQuantity * mult) []
        with ⟨xs, xe⟩
      rw [hX] at h
      have hchild : ∀ rec2, rec2 ∈ xs →
          (dictGet rec2 "Type" = some (vStr "purchased") ∨
           dictGet rec2 "Type" = some (vStr "profile material") ∨
           dictGet rec2 "Type" = some (vStr "sheet material")) ∧
          (dictGet rec2 "Part Number").isSome := by
        intro rec2 hr
        exact collectRows_inv_aux children _ rec2 (by rw [hX]; exact hr)
      cases xe with
      | some e => exact hchild rec h
      | none =>
        cases hcl : classifyRow (BRow.mk q bs it children)
            ((BRow.mk q bs it children).itemQuantity * mult) with
        | ok o =>
          cases o with
          | some r =>
            rw [hcl] at h
            simp only [List.mem_append, List.mem_singleton] at h
            rcases h with h | h
            · exact hchild rec h
            · subst h
              obtain ⟨_, hpn, hty⟩ := classifyRow_ok_some _ _ _ hcl
              exact ⟨hty, hpn⟩
          | none => rw [hcl] at h; exact hchild rec h
        | error e => rw [hcl] at h; exact hchild rec h

theorem collectRows_inv_aux (rows : BRows) (mult : ℤ) (rec : Dict)
    (h : rec ∈ (collectRows rows mult []).1) :
    (dictGet rec "Type" = some (vStr "purchased") ∨
     dictGet rec "Type" = some (vStr "profile material") ∨
     dictGet rec "Type" = some (vStr "sheet material")) ∧
    (dictGet rec "Part Number").isSome := by
  cases rows with
  | nil => rw [collectRows] at h; simp at h
  | cons row rest =>
    rw [collectRows] at h
    rcases hR : collectRow row mult [] with ⟨ys, ye⟩
    rw [hR] at h
    have hhead : ∀ rec2, rec2 ∈ ys →
        (dictGet rec2 "Type" = some (vStr "purchased") ∨
         dictGet rec2 "Type" = some (vStr "profile material") ∨
         dictGet rec2 "Type" = some (vStr "sheet material")) ∧
        (dictGet rec2 "Part Number").isSome := by
      intro rec2 hr
      exact collectRow_inv_aux row mult rec2 (by rw [hR]; exact hr)
    cases ye with
    | some e => exact hhead rec h
    | none =>
      have h2 : rec ∈ (collectRows rest mult ys).1 := h
      rw [collectRows_append rest mult ys] at h2
      simp only [List.mem_append] at h2
      rcases h2 with h2 | h2
      · exact hhead rec h2
      · exact collectRows_inv_aux rest mult rec h2

end

theorem collectRow_postorder_aux (row : BRow) (mult : ℤ) (data : List Dict) :
    (collectRow row mult data).1 =
      data ++
        (if row.isPurchased then classifyList row (row.itemQuantity * mult)
         else
           (collectRows row.childRows (row.itemQuantity * mult) []).1 ++
             (if (collectRows row.childRows (row.itemQuantity * mult) []).2 = none
              then classifyList row (row.itemQuantity * mult) else [])) := by
  cases row with
  | mk q bs it children =>
    rw [collectRow]
    by_cases hp : (BRow.mk q bs it children).isPurchased
    · rw [if_pos hp, if_pos hp]
      cases hcl : classifyRow (BRow.mk q bs it children)
          ((BRow.mk q bs it children).itemQuantity * mult) with
      | ok o => cases o <;> simp [classifyList, hcl]
      | error e => simp [classifyList, hcl]
    · rw [if_neg hp, if_neg hp]
      rw [collectRows_append children ((BRow.mk q bs it children).itemQuantity * mult) data]
      rcases hX : collectRows children ((BRow.mk q bs it children).itemQuantity * mult) []
        with ⟨xs, xe⟩
      simp only [BRow.childRows, hX]
      cases xe with
      | some e => simp
      | none =>
        cases hcl : classifyRow (BRow.mk q bs it children)
            ((BRow.mk q bs it children).itemQuantity * mult) with
        | ok o => cases o <;> simp [classifyList, hcl]
        | error e => simp [classifyList, hcl]

theorem string_beq_mk (s : String) (l : List Char) : (s == String.mk l) = (s.data == l) := by
  rw [Bool.eq_iff_iff]
  simp [String.ext_iff]

theorem needsResolve_eq_amended (m s : String) : needsResolve m s = amendedTrigger m s := by
  by_cases hde : (m.data.takeWhile Char.isDigit).isEmpty
  · simp [needsResolve, reMatchProfile, amendedTrigger, hde]
  · rcases hrest : m.data.drop (m.data.takeWhile Char.isDigit).length with _ | ⟨c, cs2⟩
    · by_cases hlen : 2 ≤ (m.data.takeWhile Char.isDigit).length
      · simp [needsResolve, reMatchProfile, amendedTrigger, hde, hrest, hlen, string_beq_mk]
      · simp [needsResolve, reMatchProfile, amendedTrigger, hde, hrest, hlen]
    · by_cases hc : c = '\n'
      · by_cases hlen : 2 ≤ (m.data.takeWhile Char.isDigit).length
        · simp [needsResolve, reMatchProfile, amendedTrigger, hde, hrest, hc, hlen,
            string_beq_mk]
        · simp [needsResolve, reMatchProfile, amendedTrigger, hde, hrest, hc, hlen]
      · by_cases hd2 : (cs2.takeWhile Char.isDigit).isEmpty
        · simp [needsResolve, reMatchProfile, amendedTrigger, hde, hrest, hc, hd2,
            string_beq_mk]
        · simp [needsResolve, reMatchProfile, amendedTrigger, hde, hrest, hc, hd2,
            string_beq_mk]

theorem exc_bind_ok {α β : Type} (a : α) (f : α → Except String β) :
    (Except.ok a : Except String α) >>= f = f a := rfl

theorem exc_pure {α : Type} (a : α) : (pure a : Except String α) = .ok a := rfl

theorem cellMatch_spec (cv : Option String) (m : String) :
    cellMatch cv (vStr m) = .ok (specCellMatchV cv (vStr m)) := by
  cases cv with
  | none => rfl
  | some s =>
    by_cases h : s == ""
    · simp [cellMatch, specCellMatchV, h, exc_pure]
    · simp [cellMatch, specCellMatchV, h, pyStartsWith]

theorem matchingCells_spec (m : String) (cells : List (ℕ × Option String)) :
    matchingCells (vStr m) cells =
      .ok (cells.filter (fun c => specCellMatchV c.2 (vStr m))) := by
  induction cells with
  | nil => rfl
  | cons c rest ih =>
    rw [matchingCells, cellMatch_spec, ih]
    by_cases hb : specCellMatchV c.2 (vStr m) <;> simp [List.filter_cons, hb]

theorem filter_isEmpty_eq_not_any (p : α → Bool) (l : List α) :
    (l.filter p).isEmpty = !(l.any p) := by
  induction l with
  | nil => rfl
  | cons a t ih =>
    by_cases hp : p a <;> simp [List.filter_cons, List.any_cons, hp, ih]

theorem transferStep_spec (keyCol : List (Option String)) (w : List (ℕ × PyVal × PyVal))
    (ex : List MatEntry) (e : MatEntry) (m : String) (hm : e.material = vStr m) :
    transferStep keyCol (w, ex) e =
      .ok (w ++ ((keyCol.enum.filter (fun c => specCellMatchV c.2 e.material)).map
            (fun c => (c.1 + 1, e.massv, e.secondv))),
          ex ++ (if keyCol.enum.any (fun c => specCellMatchV c.2 e.material) then []
                 else [e])) := by
  rw [transferStep, hm]
  rw [show matchingCells (vStr m) keyCol.enum =
    .ok (keyCol.enum.filter (fun c => specCellMatchV c.2 (vStr m))) from matchingCells_spec m _]
  simp only [exc_bind_ok, exc_pure]
  rw [filter_isEmpty_eq_not_any]
  by_cases ha : keyCol.enum.any (fun c => specCellMatchV c.2 (vStr m)) <;> simp [ha, hm]

theorem transferFold_spec (keyCol : List (Option String)) (data : List MatEntry)
    (hs : ∀ e ∈ data, ∃ m, e.material = vStr m) :
    ∀ (w : List (ℕ × PyVal × PyVal)) (ex : List MatEntry),
      data.foldlM (transferStep keyCol) (w, ex) =
        .ok (w ++ data.flatMap (fun e =>
              ((keyCol.enum.filter (fun c => specCellMatchV c.2 e.material)).map
                (fun c => (c.1 + 1, e.massv, e.secondv)))),
            ex ++ data.filter
              (fun e => !(keyCol.enum.any (fun c => specCellMatchV c.2 e.material)))) := by
  induction data with
  | nil => intro w ex; simp [List.foldlM, exc_pure]
  | cons e rest ih =>
    intro w ex
    obtain ⟨m, hm⟩ := hs e (by simp)
    rw [List.foldlM_cons, transferStep_spec keyCol w ex e m hm, exc_bind_ok]
    rw [ih (fun e2 he2 => hs e2 (by simp [he2])) _ _]
    by_cases ha : keyCol.enum.any (fun c => specCellMatchV c.2 e.material) <;>
      simp [ha, List.filter_cons, List.flatMap_cons]

theorem pySort_singleton {α : Type} (lt : α → α → Except String Bool) (x : α) :
    pySort lt [x] = .ok [x] := by
  simp [pySort, pyInsertSorted, exc_bind_ok, exc_pure]

theorem purchasedQuantity_spec (item : Dict) (s : String) (n : ℤ)
    (huq : dictGet item "Unit Quantity" = some (vStr s))
    (hiq : dictGet item "Item Quantity" = some (vInt n)) :
    purchasedQuantity item =
      .ok (match pyFloatParse (rstripSpaceM s) with
           | some q => vFloat (q * (n : ℚ))
           | none => vInt n) := by
  rw [purchasedQuantity]
  simp only [dictGetE, huq, hiq, exc_bind_ok]
  cases hparse : pyFloatParse (rstripSpaceM s) with
  | some q => simp [pyMul, hparse]
  | none => simp [pyMul, hparse]

theorem purchasedRecord_type (row : BRow) (q : ℤ) :
    dictGet (purchasedRecord row q) "Type" = some (vStr "purchased") := by
  rw [purchasedRecord, List.append_assoc,
    dictGet_append_right _ _ _ (by rfl),
    dictGet_append_right _ _ _ (dictGet_of_not_mem_fst _ _ (by
      rw [getProperties_fst]; decide))]
  rfl

theorem purchasedRecord_props (row : BRow) (q : ℤ) :
    ∀ k ∈ purchasedItemProperties, (dictGet (purchasedRecord row q) k).isSome := by
  intro k hk
  have hmem : k ∈ (getProperties row.item.propLookup purchasedItemProperties).map Prod.fst := by
    rw [getProperties_fst]; exact hk
  obtain ⟨v, hv⟩ := Option.isSome_iff_exists.mp (dictGet_mem_fst_isSome _ _ hmem)
  have hbase : dictGet [("Unit Quantity", vStr row.item.unitQuantity),
      ("Item Quantity", vInt q)] k = none := by
    fin_cases hk <;> rfl
  rw [purchasedRecord, List.append_assoc, dictGet_append_right _ _ _ hbase,
    dictGet_append_left _ _ _ _ hv]
  rfl

theorem purchasedRecord_itemQ (row : BRow) (q : ℤ) :
    dictGet (purchasedRecord row q) "Item Quantity" = some (vInt q) := by
  rw [purchasedRecord, List.append_assoc, dictGet_append_left _ _ _ (vInt q) (by rfl)]

theorem collectRow_purchased (row : BRow) (mult : ℤ) (data : List Dict)
    (hp : row.isPurchased = true) :
    collectRow row mult data =
      (data ++ [purchasedRecord row (row.itemQuantity * mult)], none) := by
  cases row with
  | mk q bs it children =>
    rw [collectRow, if_pos hp, classifyRow_purchased_eq _ _ hp]

/-! ## Claim theorems -/

/-- C1: for every BOM row forest walked by the data-collection operation
with a given multiplier, each emitted record is the classification output
of its own emitting row — the row sitting at some child-index path p from a
root — invoked with the product of the item quantities along p (the
quantities of that row and of every ancestor on the path) times the
multiplier, and the item quantity stored on the record is exactly that
product times the multiplier. The classifyRow conjunct pins the record to
the row at p: its stored quantity and every fetched field are the ones
that row produces with the product of its own path, so a walk that stamped
a record with the cumulative quantity of a sibling would not satisfy the
statement. -/
theorem collect_item_quantity_is_path_product (rows : BRows) (mult : ℤ) (rec : Dict)
    (h : rec ∈ (collectRows rows mult []).1) :
    ∃ p row qq, forestNode rows p = some row ∧ forestPathProd rows p = some qq ∧
      classifyRow row (qq * mult) = .ok (some rec) ∧
      dictGet rec "Item Quantity" = some (vInt (qq * mult)) :=
  collectRows_qty_aux rows mult rec h

/-- Witness for C1: in the concrete two-level tree exTree (root quantity 2,
purchased child quantity 3) the emitted child record is the classification
of the child row with path product 6, stamped with item quantity 6 * 1. -/
theorem collect_item_quantity_is_path_product_witness :
    exChildRec ∈ (collectRows (BRows.cons exTree BRows.nil) 1 []).1 ∧
    (∃ p row qq, forestNode (BRows.cons exTree BRows.nil) p = some row ∧
      forestPathProd (BRows.cons exTree BRows.nil) p = some qq ∧
      classifyRow row (qq * 1) = .ok (some exChildRec) ∧
      dictGet exChildRec "Item Quantity" = some (vInt (qq * 1))) :=
  ⟨by with_unfolding_all decide,
   collect_item_quantity_is_path_product (BRows.cons exTree BRows.nil) 1 exChildRec
     (by with_unfolding_all decide)⟩

/-- C2 (code bug): on the spec end-to-end tree the walk itself succeeds and
the purchased aggregate is the expected single entry with quantity 3, but
the sheet-material summariser raises KeyError out of its stale-variable
rounding loop, so the whole issue operation aborts instead of producing the
Sheet-A aggregate. -/
theorem issue_spec_tree_crashes_in_sheet_rounding :
    (collectRows specRows 1 []).2 = none ∧
    summarizePurchased (collectRows specRows 1 []).1 =
      .ok [⟨vStr "P-1", vStr "", vStr "", vInt 3, vStr ""⟩] ∧
    summarizeSheetMaterial (collectRows specRows 1 []).1 = .error "KeyError: 1" ∧
    issueBom ⟨[], []⟩ (fun _ => Axis.Z) specRows = .error "KeyError: 1" :=
  ⟨by with_unfolding_all rfl, by with_unfolding_all rfl, by with_unfolding_all rfl,
   by with_unfolding_all rfl⟩

/-- C3: a purchased row, whatever its child rows, makes the walk append
exactly one record for itself — tagged purchased and carrying every
purchasing property key — and nothing for any descendant: the output is the
input data plus that single record, independent of the child rows. -/
theorem purchased_row_emits_exactly_one_record (row : BRow) (mult : ℤ) (data : List Dict)
    (hp : row.isPurchased = true) :
    collectRow row mult data =
      (data ++ [purchasedRecord row (row.itemQuantity * mult)], none) ∧
    dictGet (purchasedRecord row (row.itemQuantity * mult)) "Type" =
      some (vStr "purchased") ∧
    ∀ k ∈ purchasedItemProperties,
      (dictGet (purchasedRecord row (row.itemQuantity * mult)) k).isSome :=
  ⟨collectRow_purchased row mult data hp, purchasedRecord_type row _,
   purchasedRecord_props row _⟩

/-- Witness for C3: a purchased row with a nonempty child sequence emits
its single record and no descendant records. -/
theorem purchased_row_emits_exactly_one_record_witness :
    purchRowWithChild.isPurchased = true ∧
    (collectRow purchRowWithChild 1 [] =
        ([] ++ [purchasedRecord purchRowWithChild (purchRowWithChild.itemQuantity * 1)],
          none) ∧
      dictGet (purchasedRecord purchRowWithChild (purchRowWithChild.itemQuantity * 1))
          "Type" = some (vStr "purchased") ∧
      ∀ k ∈ purchasedItemProperties,
        (dictGet (purchasedRecord purchRowWithChild (purchRowWithChild.itemQuantity * 1))
          k).isSome) :=
  ⟨by decide, purchased_row_emits_exactly_one_record purchRowWithChild 1 [] (by decide)⟩

/-- Counterexample for C4: for material 20x40 with Size Z equal to 40, the
source requests disambiguation (the summary output depends on the resolver)
although the claim as stated predicts no request, 40 being no substring of
the leading numeric token 20. -/
theorem profile_axis_substring_counterexample :
    needsResolve "20x40" "40" = true ∧
    specNeedsResolve "20x40" "40" = false ∧
    summarizeProfileMaterial (fun _ => Axis.X) [profRec40] =
      .ok [⟨vStr "20x40", vFloat 0, vFloat (1 / 10)⟩] ∧
    summarizeProfileMaterial (fun _ => Axis.Z) [profRec40] =
      .ok [⟨vStr "20x40", vFloat 0, vFloat (1 / 25)⟩] ∧
    (1 / 10 : ℚ) ≠ (1 / 25 : ℚ) :=
  ⟨by decide, by decide, by with_unfolding_all rfl, by with_unfolding_all rfl, by norm_num⟩

/-- C4 as amended: the length axis defaults to Z and the external request
is triggered exactly when the stringified Size Z equals one of the one or
two digit groups captured from the material name by the regex with one
digit group, an arbitrary separator character and an optional second digit
group (amendedTrigger spells that condition out); otherwise length is taken
from Size Z with no request. Stated on a one-record input with integer
sizes, for every resolver. -/
theorem profile_axis_selection_amended (item : Dict) (ms : String) (g x y z n : ℤ)
    (pn : PyVal) (resolve : Dict → Axis)
    (hty : dictGet item "Type" = some (vStr "profile material"))
    (hmat : dictGet item "Material" = some (vStr ms))
    (hmass : dictGet item "Mass" = some (vInt g))
    (hx : dictGet item "Size X" = some (vInt x))
    (hy : dictGet item "Size Y" = some (vInt y))
    (hz : dictGet item "Size Z" = some (vInt z))
    (hq : dictGet item "Item Quantity" = some (vInt n))
    (hpn : dictGet item "Part Number" = some pn) :
    summarizeProfileMaterial resolve [item] =
      .ok [⟨vStr ms, vFloat ((g : ℚ) / 1000 * (n : ℚ)),
        vFloat ((((match (if amendedTrigger ms (toString z) then resolve item else Axis.Z) with
            | Axis.X => x
            | Axis.Y => y
            | Axis.Z => z) : ℤ) : ℚ) / 1000 * (n : ℚ))⟩] := by
  have hfil : filterByType [item] "profile material" = .ok [item] := by
    rw [filterByType, hty, filterByType]
    simp [pyEq]
  have hstep : profileStep resolve [] item =
      .ok [⟨vStr ms, vFloat ((g : ℚ) / 1000 * (n : ℚ)),
        vFloat ((((match (if amendedTrigger ms (toString z) then resolve item else Axis.Z) with
            | Axis.X => x
            | Axis.Y => y
            | Axis.Z => z) : ℤ) : ℚ) / 1000 * (n : ℚ))⟩] := by
    rw [profileStep]
    simp only [dictGetE, hq, hmat, hmass, hz, exc_bind_ok, pyDiv, pyToRat, pyMul, pyStr,
      needsResolve_eq_amended]
    by_cases htr : amendedTrigger ms (toString z) = true
    · simp only [htr, if_true, hpn, exc_bind_ok]
      cases hax : resolve item <;>
        simp [htr, hax, Axis.keyOf, dictGetE, hx, hy, hz, exc_bind_ok, exc_pure, pyDiv,
          pyToRat, pyMul, List.mapM.loop, pyEq]
    · simp only [Bool.not_eq_true] at htr
      simp [htr, Axis.keyOf, dictGetE, hz, exc_bind_ok, exc_pure, pyDiv, pyToRat, pyMul,
        List.mapM.loop, pyEq]
  rw [summarizeProfileMaterial]
  simp only [hfil, exc_bind_ok, List.foldlM_cons, hstep, List.foldlM_nil, exc_pure]

/-- Witness for C4: a record whose material name has no leading digit never
triggers the request and uses Size Z. -/
theorem profile_axis_selection_amended_witness :
    summarizeProfileMaterial (fun _ => Axis.Z) [profRecEx] =
      .ok [⟨vStr "Труба 20x40", vFloat ((500 : ℚ) / 1000 * ((2 : ℤ) : ℚ)),
        vFloat ((((match (if amendedTrigger "Труба 20x40" (toString (1000 : ℤ)) then
              (fun _ => Axis.Z) profRecEx else Axis.Z) with
            | Axis.X => (40 : ℤ)
            | Axis.Y => (20 : ℤ)
            | Axis.Z => (1000 : ℤ)) : ℤ) : ℚ) / 1000 * ((2 : ℤ) : ℚ))⟩] :=
  profile_axis_selection_amended profRecEx "Труба 20x40" 500 40 20 1000 2 (vStr "PN")
    (fun _ => Axis.Z) rfl rfl rfl rfl rfl rfl rfl rfl

/-- C5 (code bug): get_properties recovers a failed lookup, but with the
value of the most recent successful lookup of the same call instead of an
empty value — Project, found nowhere, inherits the ACME just fetched for
Vendor; with the order reversed the failed first lookup yields None. No
failure propagates (the function is total by construction). -/
theorem get_properties_stale_value :
    getProperties exLookup ["Vendor", "Project"] =
      [("Vendor", vStr "ACME"), ("Project", vStr "ACME")] ∧
    getProperties exLookup ["Project", "Vendor"] =
      [("Project", vNone), ("Vendor", vStr "ACME")] ∧
    vStr "ACME" ≠ vNone ∧ vStr "ACME" ≠ vStr "" :=
  ⟨by decide, by decide, by simp, by simp⟩

/-- Counterexample for C6: the unit-quantity string 2.5 has no meter
suffix, so the claim as stated predicts the plain integer quantity 4, yet
the source strips nothing, parses 2.5 and produces the measured total
10.00 м. -/
theorem purchased_unit_suffix_counterexample :
    specMeasuredUnit "2.5" = false ∧
    summarizePurchased [purchRec "2.5" 4] =
      .ok [⟨vStr "P", vStr "", vStr "", vStr "10.00 м", vStr ""⟩] ∧
    vStr "10.00 м" ≠ vInt 4 :=
  ⟨by decide, by with_unfolding_all rfl, by simp⟩

/-- C6 as amended: a purchased record contributes a measured quantity
exactly when float() succeeds on its unit-quantity string after stripping
all trailing spaces and м characters (the meter suffix itself optional):
then the total is the parsed value times the item quantity, formatted with
two decimals and the meter suffix; otherwise the plain integer item
quantity, left unformatted. Stated on a one-record input. -/
theorem purchased_quantity_amended (item : Dict) (s : String) (n : ℤ)
    (pj vd st ds pn : PyVal)
    (hty : dictGet item "Type" = some (vStr "purchased"))
    (huq : dictGet item "Unit Quantity" = some (vStr s))
    (hiq : dictGet item "Item Quantity" = some (vInt n))
    (hpj : dictGet item "Project" = some pj)
    (hvd : dictGet item "Vendor" = some vd)
    (hst : dictGet item "Stock Number" = some st)
    (hds : dictGet item "Description" = some ds)
    (hpn : dictGet item "Part Number" = some pn) :
    summarizePurchased [item] =
      .ok [⟨if pyTruthy pj || pyTruthy vd then ds else pn, pj, vd, amendedQty s n, st⟩] := by
  have hfil : filterByType [item] "purchased" = .ok [item] := by
    rw [filterByType, hty, filterByType]
    simp [pyEq]
  have hstep : purchasedStep [] item =
      .ok [⟨if pyTruthy pj || pyTruthy vd then ds else pn, pj, vd,
        (match pyFloatParse (rstripSpaceM s) with
         | some q => vFloat (q * (n : ℚ))
         | none => vInt n), st⟩] := by
    rw [purchasedStep]
    simp only [dictGetE, hpj, hvd, hst, hds, hpn, exc_bind_ok,
      purchasedQuantity_spec item s n huq hiq]
    by_cases hcond : (pyTruthy pj || pyTruthy vd) = true
    · simp [hcond, dictGetE, hds, exc_bind_ok, exc_pure, List.mapM.loop]
    · simp [Bool.not_eq_true] at hcond
      simp [hcond, dictGetE, hpn, exc_bind_ok, exc_pure, List.mapM.loop]
  rw [summarizePurchased]
  simp only [hfil, exc_bind_ok, List.foldlM_cons, hstep, List.foldlM_nil, exc_pure,
    List.map_cons, List.map_nil]
  rw [pySort_singleton]
  congr 2
  cases hparse : pyFloatParse (rstripSpaceM s) with
  | some q => simp [formatQty, amendedQty, hparse]
  | none => simp [formatQty, amendedQty, hparse]

/-- Witness for C6: unit quantity 2.5 м with item quantity 4 gives the
formatted measured total, matching the worked example of the spec. -/
theorem purchased_quantity_amended_witness :
    summarizePurchased [purchRec "2.5 м" 4] =
      .ok [⟨if pyTruthy (vStr "") || pyTruthy (vStr "") then vStr "D" else vStr "P",
        vStr "", vStr "", amendedQty "2.5 м" 4, vStr ""⟩] :=
  purchased_quantity_amended (purchRec "2.5 м" 4) "2.5 м" 4 (vStr "") (vStr "")
    (vStr "") (vStr "D") (vStr "P") rfl rfl rfl rfl rfl rfl rfl rfl

/-- Counterexample for C7: in the concrete tree whose root is a normal
modeling part (ROOT, quantity 2) with one purchased child (CHILD, quantity
3), the root emits a record and the record of its descendant precedes it in
the output — the walk is not pre-order. -/
theorem walk_preorder_counterexample :
    ((collectRows (BRows.cons exTree BRows.nil) 1 []).1.map
        (fun r => dictGet r "Part Number")) =
      [some (vStr "CHILD"), some (vStr "ROOT")] ∧
    ((collectRows (BRows.cons exTree BRows.nil) 1 []).1.map
        (fun r => dictGet r "Item Quantity")) =
      [some (vInt 6), some (vInt 2)] :=
  ⟨by with_unfolding_all rfl, by with_unfolding_all rfl⟩

/-- C7 as amended: the walk appends records in depth-first post-order by
sibling index: a purchased row contributes only its own record; any other
row first contributes all the records of its descendants and only then its
own record (when classification emitted one and the descent raised no
exception). -/
theorem walk_emits_records_postorder (row : BRow) (mult : ℤ) (data : List Dict) :
    (collectRow row mult data).1 =
      data ++
        (if row.isPurchased then classifyList row (row.itemQuantity * mult)
         else
           (collectRows row.childRows (row.itemQuantity * mult) []).1 ++
             (if (collectRows row.childRows (row.itemQuantity * mult) []).2 = none
              then classifyList row (row.itemQuantity * mult) else [])) :=
  collectRow_postorder_aux row mult data

/-- C8 (code bug): permuting two sheet-material records changes the merged
mass total of M1 from the rounded 0.12 to the unrounded 0.1234, because the
final rounding loop reads the stale merge-loop variable and touches only
the entry that variable aliases — far outside floating-point tolerance. -/
theorem sheet_aggregation_order_dependent :
    summarizeSheetMaterial [sheetProbe "M1" (vFloat (617 / 5)), sheetProbe "M2" (vInt 200)] =
      .ok [⟨vStr "M1", vFloat (3 / 25), vFloat 0⟩, ⟨vStr "M2", vFloat (1 / 5), vFloat 0⟩] ∧
    summarizeSheetMaterial [sheetProbe "M2" (vInt 200), sheetProbe "M1" (vFloat (617 / 5))] =
      .ok [⟨vStr "M2", vFloat (1 / 5), vFloat 0⟩, ⟨vStr "M1", vFloat (617 / 5000), vFloat 0⟩] ∧
    (3 / 25 : ℚ) ≠ (617 / 5000 : ℚ) :=
  ⟨by with_unfolding_all rfl, by with_unfolding_all rfl, by norm_num⟩

/-- C9: with string materials, the material transfer writes every summary
entry to exactly the rows whose key cell is nonempty text the entry
material starts with, and the exceptions are exactly the entries matching
no row, each kept with its multiplicity — in particular an entry occurring
once and matching no row appears in the exceptions exactly once. -/
theorem transfer_material_prefix_matching (keyCol : List (Option String))
    (data : List MatEntry) (hs : ∀ e ∈ data, ∃ m, e.material = vStr m) :
    transferMaterial keyCol data =
      .ok (data.flatMap (fun e =>
            ((keyCol.enum.filter (fun c => specCellMatchV c.2 e.material)).map
              (fun c => (c.1 + 1, e.massv, e.secondv)))),
          data.filter
            (fun e => !(keyCol.enum.any (fun c => specCellMatchV c.2 e.material)))) ∧
    ∀ e ∈ data, keyCol.enum.any (fun c => specCellMatchV c.2 e.material) = false →
      (data.filter
        (fun e2 => !(keyCol.enum.any (fun c => specCellMatchV c.2 e2.material)))).count e =
        data.count e := by
  refine ⟨?_, ?_⟩
  · rw [transferMaterial, transferFold_spec keyCol data hs [] []]
    simp
  · intro e _ hnone
    exact List.count_filter (by rw [hnone]; rfl)

/-- Witness for C9: the spec example — key Steel 10 matches material
Steel 10x20 and the unmatched Copper entry is excepted once. -/
theorem transfer_material_prefix_matching_witness :
    transferMaterial keyColEx matEntriesEx =
      .ok (matEntriesEx.flatMap (fun e =>
            ((keyColEx.enum.filter (fun c => specCellMatchV c.2 e.material)).map
              (fun c => (c.1 + 1, e.massv, e.secondv)))),
          matEntriesEx.filter
            (fun e => !(keyColEx.enum.any (fun c => specCellMatchV c.2 e.material)))) ∧
    ∀ e ∈ matEntriesEx,
      keyColEx.enum.any (fun c => specCellMatchV c.2 e.material) = false →
      (matEntriesEx.filter
        (fun e2 =>
          !(keyColEx.enum.any (fun c => specCellMatchV c.2 e2.material)))).count e =
        matEntriesEx.count e :=
  transfer_material_prefix_matching keyColEx matEntriesEx (by
    intro e he
    fin_cases he
    · exact ⟨"Steel 10x20", rfl⟩
    · exact ⟨"Copper", rfl⟩)

/-- C10: every record the walk appends carries a Type field valued
purchased, profile material or sheet material, and a Part Number field, so
the aggregator filters and key lookups never meet a record missing those
keys. -/
theorem walk_records_have_type_and_part_number (rows : BRows) (mult : ℤ) (rec : Dict)
    (h : rec ∈ (collectRows rows mult []).1) :
    (dictGet rec "Type" = some (vStr "purchased") ∨
     dictGet rec "Type" = some (vStr "profile material") ∨
     dictGet rec "Type" = some (vStr "sheet material")) ∧
    (dictGet rec "Part Number").isSome :=
  collectRows_inv_aux rows mult rec h

/-- Witness for C10: the child record of the concrete tree exTree carries
the purchased type tag and a part number. -/
theorem walk_records_have_type_and_part_number_witness :
    exChildRec ∈ (collectRows (BRows.cons exTree BRows.nil) 1 []).1 ∧
    ((dictGet exChildRec "Type" = some (vStr "purchased") ∨
      dictGet exChildRec "Type" = some (vStr "profile material") ∨
      dictGet exChildRec "Type" = some (vStr "sheet material")) ∧
     (dictGet exChildRec "Part Number").isSome) :=
  ⟨by with_unfolding_all decide,
   walk_records_have_type_and_part_number (BRows.cons exTree BRows.nil) 1 exChildRec
     (by with_unfolding_all decide)⟩
